import Mathlib

/-!
Verification of the forgecraft generation-queue subsystem.

The definitions below are a shallow embedding of the queue code:

* `src/main/db/queue.ts` (table `generation_queue`, operations
  `addToQueue`, `getQueueItem`, `getNextPending`, `updateQueueStatus`,
  `deleteQueueItem`, `resetQueueItem`, `getQueueStatus`),
* `src/main/db/database.ts` (`initDatabase`'s crash-recovery UPDATE),
* `src/main/db/generations.ts` (`recordGeneration`),
* `src/main/services/queue-processor.ts` (`isDiskFullError`,
  `createQueueProcessor`'s `processNext`/`processItem` and the
  start/stop/pause/resume controls),
* `src/main/services/queue-service.ts` (`add`/`cancel`/`remove`/`retry`).

The SQLite table `generation_queue` is modelled as a `List QueueItem` in
rowid (= insertion) order; `id TEXT PRIMARY KEY` means the list of ids is
duplicate-free in every state the storage engine can produce, and a
duplicate INSERT throws.  The JSON round-trip of the `request` column
(`JSON.stringify` on insert, `JSON.parse` on read) is the identity on the
structured record and is modelled by storing the record itself.
JavaScript timestamps (`Date.now()`) are modelled as `Nat`, other numbers
as `Int`.
-/

namespace Forgecraft

/-- Job status, column `status` of `generation_queue`
(`'pending' | 'generating' | 'complete' | 'failed'`). -/
inductive QueueStatus where
  | pending
  | generating
  | complete
  | failed
deriving DecidableEq, Repr

/-- The fields of a `GenerationRequest` that the queue subsystem reads
(see `createRequest` in the tests and the uses in `processItem`). -/
structure GenerationRequest where
  id : String
  themeId : Option String
  templateId : Option String
  templateValues : Option (List (String × String))
  prompt : String
  negativePrompt : Option String
  model : String
  width : Int
  height : Int
  steps : Int
  cfgScale : Int
  seed : Option Int
  outputPath : String
deriving DecidableEq, Repr

/-- A row of `generation_queue`, as surfaced by `rowToQueueItem`. -/
structure QueueItem where
  id : String
  status : QueueStatus
  request : GenerationRequest
  createdAt : Nat
  startedAt : Option Nat
  completedAt : Option Nat
  error : Option String
  resultSeed : Option Int
deriving DecidableEq, Repr

/-- A row of the `generations` history table, as built by `processItem`
and passed to `recordGeneration`. -/
structure GenerationRecord where
  id : String
  themeId : Option String
  templateId : Option String
  templateValues : Option (List (String × String))
  prompt : String
  negativePrompt : Option String
  seed : Int
  outputPath : String
  transparentPath : Option String
  model : String
  width : Int
  height : Int
  steps : Int
  cfgScale : Int
  generationTimeMs : Int
  createdAt : Nat
deriving DecidableEq, Repr

/-- `addToQueue(request)`: INSERT with status `'pending'`, `created_at`
the current time and the optional columns NULL.  `id` is the PRIMARY KEY
of `generation_queue`, so inserting an id already present makes SQLite
throw a constraint error; the `Except` models that throw.  On success the
function returns the in-memory item it built. -/
def addToQueue (request : GenerationRequest) (now : Nat) (q : List QueueItem) :
    Except String (List QueueItem × QueueItem) :=
  if ∃ it ∈ q, it.id = request.id then
    .error "UNIQUE constraint failed: generation_queue.id"
  else
    let item : QueueItem :=
      { id := request.id
        status := .pending
        request := request
        createdAt := now
        startedAt := none
        completedAt := none
        error := none
        resultSeed := none }
    .ok (q ++ [item], item)

/-- `getQueueItem(id)`: `SELECT * FROM generation_queue WHERE id = ?`
(first matching row; ids are unique in engine-produced states). -/
def getQueueItem (q : List QueueItem) (id : String) : Option QueueItem :=
  q.find? fun it => it.id == id

/-- `getNextPending()`: `SELECT * FROM generation_queue WHERE status =
'pending' ORDER BY created_at ASC LIMIT 1`.  SQLite scans the rows in
rowid (insertion) order and, with `LIMIT 1`, keeps the first row
encountered whose key is minimal (a later row replaces the kept one only
when strictly smaller), so among pending rows sharing the smallest
`created_at` the earliest-inserted row is returned. -/
def getNextPending : List QueueItem → Option QueueItem
  | [] => none
  | it :: rest =>
    if it.status = QueueStatus.pending then
      match getNextPending rest with
      | none => some it
      | some b => if b.createdAt < it.createdAt then some b else some it
    else
      getNextPending rest

/-- The optional `updates` argument of `updateQueueStatus`: `none` models
an absent (`undefined`) field, whose column the UPDATE does not touch. -/
structure StatusUpdates where
  startedAt : Option Nat
  completedAt : Option Nat
  error : Option String
  resultSeed : Option Int
deriving DecidableEq, Repr

/-- Effect of `updateQueueStatus`'s UPDATE on one matching row: `status`
is always set; each optional column is set only when supplied. -/
def applyUpdates (it : QueueItem) (status : QueueStatus) (u : StatusUpdates) : QueueItem :=
  { it with
    status := status
    startedAt := match u.startedAt with | some v => some v | none => it.startedAt
    completedAt := match u.completedAt with | some v => some v | none => it.completedAt
    error := match u.error with | some v => some v | none => it.error
    resultSeed := match u.resultSeed with | some v => some v | none => it.resultSeed }

/-- `updateQueueStatus(id, status, updates)`: `UPDATE generation_queue
SET status = ?, ... WHERE id = ?`. -/
def updateQueueStatus (q : List QueueItem) (id : String) (status : QueueStatus)
    (u : StatusUpdates) : List QueueItem :=
  q.map fun it => if it.id = id then applyUpdates it status u else it

/-- `deleteQueueItem(id)`: `DELETE FROM generation_queue WHERE id = ?`,
returning `changes > 0`. -/
def deleteQueueItem (q : List QueueItem) (id : String) : List QueueItem × Bool :=
  (q.filter fun it => it.id != id, q.any fun it => it.id == id)

/-- `resetQueueItem(id)`: `UPDATE generation_queue SET status =
'pending', started_at = NULL, completed_at = NULL, error = NULL,
result_seed = NULL WHERE id = ?`, returning `changes > 0`. -/
def resetQueueItem (q : List QueueItem) (id : String) : List QueueItem × Bool :=
  (q.map fun it =>
      if it.id = id then
        { it with
          status := .pending
          startedAt := none
          completedAt := none
          error := none
          resultSeed := none }
      else it,
   q.any fun it => it.id == id)

/-- The crash-recovery UPDATE run by `initDatabase`:
`UPDATE generation_queue SET status = 'pending', started_at = NULL WHERE
status = 'generating'`.  Note that only `started_at` is nulled. -/
def recoverQueue (q : List QueueItem) : List QueueItem :=
  q.map fun it =>
    if it.status = QueueStatus.generating then
      { it with status := .pending, startedAt := none }
    else it

/-! ### Properties of `getNextPending` -/

theorem getNextPending_eq_none (q : List QueueItem) :
    getNextPending q = none ↔ ∀ it ∈ q, it.status ≠ QueueStatus.pending := by
  induction q with
  | nil => simp [getNextPending]
  | cons a rest ih =>
    by_cases ha : a.status = QueueStatus.pending
    · cases hrest : getNextPending rest with
      | none =>
        have hq : getNextPending (a :: rest) = some a := by
          simp [getNextPending, ha, hrest]
        rw [hq]
        constructor
        · intro h; cases h
        · intro h; exact absurd ha (h a (List.mem_cons_self a rest))
      | some c =>
        have hq : getNextPending (a :: rest) =
            (if c.createdAt < a.createdAt then some c else some a) := by
          simp [getNextPending, ha, hrest]
        rw [hq]
        constructor
        · intro h; split at h <;> cases h
        · intro h; exact absurd ha (h a (List.mem_cons_self a rest))
    · have hq : getNextPending (a :: rest) = getNextPending rest := by
        simp [getNextPending, ha]
      rw [hq, ih]
      constructor
      · intro h it hit
        rcases List.mem_cons.mp hit with rfl | hmem
        · exact ha
        · exact h it hmem
      · intro h it hmem
        exact h it (List.mem_cons_of_mem _ hmem)

theorem getNextPending_some_min (q : List QueueItem) (b : QueueItem)
    (h : getNextPending q = some b) :
    b.status = QueueStatus.pending ∧
      ∀ it ∈ q, it.status = QueueStatus.pending → b.createdAt ≤ it.createdAt := by
  induction q generalizing b with
  | nil => cases h
  | cons a rest ih =>
    by_cases ha : a.status = QueueStatus.pending
    · cases hrest : getNextPending rest with
      | none =>
        have hq : getNextPending (a :: rest) = some a := by
          simp [getNextPending, ha, hrest]
        rw [hq] at h
        obtain rfl : a = b := by injection h
        refine ⟨ha, ?_⟩
        intro it hit hpend
        rcases List.mem_cons.mp hit with rfl | hmem
        · exact le_refl _
        · exact absurd hpend ((getNextPending_eq_none rest).mp hrest it hmem)
      | some c =>
        obtain ⟨hcpend, hcmin⟩ := ih c hrest
        have hq : getNextPending (a :: rest) =
            (if c.createdAt < a.createdAt then some c else some a) := by
          simp [getNextPending, ha, hrest]
        rw [hq] at h
        by_cases hlt : c.createdAt < a.createdAt
        · rw [if_pos hlt] at h
          obtain rfl : c = b := by injection h
          refine ⟨hcpend, ?_⟩
          intro it hit hpend
          rcases List.mem_cons.mp hit with rfl | hmem
          · exact le_of_lt hlt
          · exact hcmin it hmem hpend
        · rw [if_neg hlt] at h
          obtain rfl : a = b := by injection h
          refine ⟨ha, ?_⟩
          intro it hit hpend
          rcases List.mem_cons.mp hit with rfl | hmem
          · exact le_refl _
          · exact le_trans (not_lt.mp hlt) (hcmin it hmem hpend)
    · have hq : getNextPending (a :: rest) = getNextPending rest := by
        simp [getNextPending, ha]
      rw [hq] at h
      obtain ⟨hbpend, hbmin⟩ := ih b h
      refine ⟨hbpend, ?_⟩
      intro it hit hpend
      rcases List.mem_cons.mp hit with rfl | hmem
      · exact absurd hpend ha
      · exact hbmin it hmem hpend

theorem getNextPending_first (q : List QueueItem) (b : QueueItem)
    (h : getNextPending q = some b) :
    ∃ l₁ l₂, q = l₁ ++ b :: l₂ ∧
      ∀ it ∈ l₁, it.status = QueueStatus.pending → b.createdAt < it.createdAt := by
  induction q generalizing b with
  | nil => cases h
  | cons a rest ih =>
    by_cases ha : a.status = QueueStatus.pending
    · cases hrest : getNextPending rest with
      | none =>
        have hq : getNextPending (a :: rest) = some a := by
          simp [getNextPending, ha, hrest]
        rw [hq] at h
        obtain rfl : a = b := by injection h
        exact ⟨[], rest, rfl, by simp⟩
      | some c =>
        have hq : getNextPending (a :: rest) =
            (if c.createdAt < a.createdAt then some c else some a) := by
          simp [getNextPending, ha, hrest]
        rw [hq] at h
        by_cases hlt : c.createdAt < a.createdAt
        · rw [if_pos hlt] at h
          obtain rfl : c = b := by injection h
          obtain ⟨l₁, l₂, hdec, hcond⟩ := ih c hrest
          refine ⟨a :: l₁, l₂, by rw [hdec]; rfl, ?_⟩
          intro it hit hpend
          rcases List.mem_cons.mp hit with rfl | hmem
          · exact hlt
          · exact hcond it hmem hpend
        · rw [if_neg hlt] at h
          obtain rfl : a = b := by injection h
          exact ⟨[], rest, rfl, by simp⟩
    · have hq : getNextPending (a :: rest) = getNextPending rest := by
        simp [getNextPending, ha]
      rw [hq] at h
      obtain ⟨l₁, l₂, hdec, hcond⟩ := ih b h
      refine ⟨a :: l₁, l₂, by rw [hdec]; rfl, ?_⟩
      intro it hit hpend
      rcases List.mem_cons.mp hit with rfl | hmem
      · exact absurd hpend ha
      · exact hcond it hmem hpend

theorem getNextPending_mem (q : List QueueItem) (b : QueueItem)
    (h : getNextPending q = some b) : b ∈ q := by
  obtain ⟨l₁, l₂, hdec, -⟩ := getNextPending_first q b h
  rw [hdec]
  exact List.mem_append_right _ (List.mem_cons_self b l₂)

/-- C1: for every queue state, `getNextPending` returns the item with
status `pending` having the smallest `createdAt` (and `none` exactly when
no pending item exists); when several pending items share the smallest
`createdAt`, the earliest-inserted one (first in rowid order) is
returned. -/
theorem nextPending_fifo (q : List QueueItem) :
    (getNextPending q = none ↔ ∀ it ∈ q, it.status ≠ QueueStatus.pending) ∧
    ∀ b, getNextPending q = some b →
      b.status = QueueStatus.pending ∧
      (∀ it ∈ q, it.status = QueueStatus.pending → b.createdAt ≤ it.createdAt) ∧
      ∃ l₁ l₂, q = l₁ ++ b :: l₂ ∧
        ∀ it ∈ l₁, it.status = QueueStatus.pending → b.createdAt < it.createdAt := by
  refine ⟨getNextPending_eq_none q, ?_⟩
  intro b h
  obtain ⟨hpend, hmin⟩ := getNextPending_some_min q b h
  exact ⟨hpend, hmin, getNextPending_first q b h⟩

/-- A small concrete request used by the witnesses. -/
def exReq (id : String) : GenerationRequest :=
  { id := id
    themeId := none
    templateId := none
    templateValues := none
    prompt := "a fox"
    negativePrompt := none
    model := "m1"
    width := 512
    height := 512
    steps := 20
    cfgScale := 7
    seed := none
    outputPath := "/out/img.png" }

/-- A small concrete queue item used by the witnesses. -/
def exItem (id : String) (st : QueueStatus) (created : Nat) : QueueItem :=
  { id := id
    status := st
    request := exReq id
    createdAt := created
    startedAt := none
    completedAt := none
    error := none
    resultSeed := none }

/-- Queue for the C1 witness: two pending items tied at the minimal
`createdAt` (5) and an older failed item. -/
def exC1queue : List QueueItem :=
  [exItem "g1" .pending 5, exItem "g2" .pending 5, exItem "g0" .failed 1]

theorem nextPending_fifo_witness :
    (exItem "g1" .pending 5).status = QueueStatus.pending ∧
      (∀ it ∈ exC1queue, it.status = QueueStatus.pending →
        (exItem "g1" .pending 5).createdAt ≤ it.createdAt) ∧
      ∃ l₁ l₂, exC1queue = l₁ ++ (exItem "g1" .pending 5) :: l₂ ∧
        ∀ it ∈ l₁, it.status = QueueStatus.pending →
          (exItem "g1" .pending 5).createdAt < it.createdAt :=
  (nextPending_fifo exC1queue).2 (exItem "g1" .pending 5) rfl

/-! ### Properties of `getQueueItem`, `addToQueue` and the row updates -/

theorem getQueueItem_id (q : List QueueItem) (id : String) (item : QueueItem)
    (h : getQueueItem q id = some item) : item.id = id := by
  have := List.find?_some h
  simpa using this

theorem getQueueItem_map (f : QueueItem → QueueItem) (hf : ∀ it, (f it).id = it.id)
    (q : List QueueItem) (id : String) :
    getQueueItem (q.map f) id = (getQueueItem q id).map f := by
  unfold getQueueItem
  rw [List.find?_map]
  have hfun : ((fun it : QueueItem => it.id == id) ∘ f) = fun it : QueueItem => it.id == id := by
    funext it
    simp [hf]
  rw [hfun]

theorem getQueueItem_filter_ne (q : List QueueItem) (id : String) :
    getQueueItem (q.filter fun it => it.id != id) id = none := by
  apply List.find?_eq_none.mpr
  intro it hit
  have := (List.mem_filter.mp hit).2
  simp_all

theorem getQueueItem_append_fresh (q : List QueueItem) (item : QueueItem)
    (h : ∀ it ∈ q, it.id ≠ item.id) :
    getQueueItem (q ++ [item]) item.id = some item := by
  induction q with
  | nil => simp [getQueueItem, List.find?]
  | cons a rest ih =>
    have ha : (a.id == item.id) = false := by
      simpa using h a (List.mem_cons_self a rest)
    have hrec := ih fun it hit => h it (List.mem_cons_of_mem _ hit)
    simpa [getQueueItem, List.find?, ha] using hrec

/-- C8: `add(request)` then `get(id)` returns an item whose `request`
equals the original (the JSON round-trip is the identity), with status
`pending`, `createdAt` the insertion time, and `startedAt`,
`completedAt`, `error`, `resultSeed` all null. -/
theorem add_get_roundtrip (r : GenerationRequest) (now : Nat) (q : List QueueItem)
    (out : List QueueItem × QueueItem) (h : addToQueue r now q = .ok out) :
    getQueueItem out.1 r.id = some out.2 ∧
      out.2.request = r ∧ out.2.status = QueueStatus.pending ∧
      out.2.createdAt = now ∧ out.2.startedAt = none ∧ out.2.completedAt = none ∧
      out.2.error = none ∧ out.2.resultSeed = none := by
  unfold addToQueue at h
  split at h
  · cases h
  · next hfresh =>
    injection h with h
    subst h
    refine ⟨?_, rfl, rfl, rfl, rfl, rfl, rfl, rfl⟩
    exact getQueueItem_append_fresh q _ fun it hit hid =>
      hfresh ⟨it, hit, hid⟩

theorem add_get_roundtrip_witness :
    getQueueItem [exItem "w8" .pending 42] "w8" = some (exItem "w8" .pending 42) ∧
      (exItem "w8" .pending 42).request = exReq "w8" ∧
      (exItem "w8" .pending 42).status = QueueStatus.pending ∧
      (exItem "w8" .pending 42).createdAt = 42 ∧
      (exItem "w8" .pending 42).startedAt = none ∧
      (exItem "w8" .pending 42).completedAt = none ∧
      (exItem "w8" .pending 42).error = none ∧
      (exItem "w8" .pending 42).resultSeed = none :=
  add_get_roundtrip (exReq "w8") 42 [] ([exItem "w8" .pending 42], exItem "w8" .pending 42)
    rfl

/-- C10: inserting a request whose id is already a row of
`generation_queue` makes the INSERT hit the `id TEXT PRIMARY KEY`
constraint and throw (modelled by `Except.error`); on a fresh id the
insert succeeds.  `addToQueue` never reports a duplicate through a
sentinel or boolean. -/
theorem add_duplicate_throws (r : GenerationRequest) (now : Nat) (q : List QueueItem) :
    ((∃ it ∈ q, it.id = r.id) →
      addToQueue r now q = .error "UNIQUE constraint failed: generation_queue.id") ∧
    ((∀ it ∈ q, it.id ≠ r.id) → ∃ out, addToQueue r now q = .ok out) := by
  constructor
  · intro hdup
    unfold addToQueue
    rw [if_pos hdup]
  · intro hfresh
    unfold addToQueue
    rw [if_neg]
    · exact ⟨_, rfl⟩
    · rintro ⟨it, hit, hid⟩
      exact hfresh it hit hid

theorem add_duplicate_throws_witness :
    addToQueue (exReq "g1") 7 exC1queue =
      .error "UNIQUE constraint failed: generation_queue.id" :=
  (add_duplicate_throws (exReq "g1") 7 exC1queue).1
    ⟨exItem "g1" .pending 5, by simp [exC1queue], rfl⟩

/-! ### Queue service commands (`queue-service.ts`) -/

/-- `cancel(id)`: fetches the item; anything but an existing `pending`
item yields `{success:false}` without touching the store; a pending item
is deleted. -/
def svcCancel (q : List QueueItem) (id : String) : List QueueItem × Bool :=
  match getQueueItem q id with
  | none => (q, false)
  | some item =>
    if item.status = QueueStatus.pending then ((deleteQueueItem q id).1, true)
    else (q, false)

/-- `remove(id)`: only `failed` or `complete` items may be removed. -/
def svcRemove (q : List QueueItem) (id : String) : List QueueItem × Bool :=
  match getQueueItem q id with
  | none => (q, false)
  | some item =>
    if item.status = QueueStatus.failed ∨ item.status = QueueStatus.complete then
      ((deleteQueueItem q id).1, true)
    else (q, false)

/-- `retry(id)`: only a `failed` item is reset back to `pending`. -/
def svcRetry (q : List QueueItem) (id : String) : List QueueItem × Bool :=
  match getQueueItem q id with
  | none => (q, false)
  | some item =>
    if item.status = QueueStatus.failed then ((resetQueueItem q id).1, true)
    else (q, false)

/-- C4: `retry(id)` on a `failed` item succeeds and leaves the item
`pending` with `error`, `resultSeed`, `startedAt`, `completedAt` all
null; on an item of any other status, or an unknown id, it fails and the
queue is untouched. -/
theorem retry_semantics (q : List QueueItem) (id : String) :
    (∀ item, getQueueItem q id = some item → item.status = QueueStatus.failed →
      (svcRetry q id).2 = true ∧
      getQueueItem (svcRetry q id).1 id =
        some { item with
               status := .pending, startedAt := none,
               completedAt := none, error := none, resultSeed := none }) ∧
    (∀ item, getQueueItem q id = some item → item.status ≠ QueueStatus.failed →
      (svcRetry q id).2 = false ∧ (svcRetry q id).1 = q) ∧
    (getQueueItem q id = none → (svcRetry q id).2 = false ∧ (svcRetry q id).1 = q) := by
  refine ⟨?_, ?_, ?_⟩
  · intro item hget hst
    have hid := getQueueItem_id q id item hget
    have hsvc : svcRetry q id = ((resetQueueItem q id).1, true) := by
      unfold svcRetry
      rw [hget]
      dsimp only
      rw [if_pos hst]
    rw [hsvc]
    refine ⟨rfl, ?_⟩
    have hmap := getQueueItem_map
      (fun it => if it.id = id then
        { it with
          status := .pending, startedAt := none, completedAt := none,
          error := none, resultSeed := none } else it)
      (fun it => by dsimp only; split <;> rfl) q id
    simp only [resetQueueItem]
    rw [hmap, hget]
    simp [hid]
  · intro item hget hst
    unfold svcRetry
    rw [hget]
    dsimp only
    rw [if_neg hst]
    exact ⟨rfl, rfl⟩
  · intro hget
    unfold svcRetry
    rw [hget]
    exact ⟨rfl, rfl⟩

/-- Failed item used by the C4 witness. -/
def exC4item : QueueItem :=
  { (exItem "f1" QueueStatus.failed 9) with
    startedAt := some 10, completedAt := some 12, error := some "boom" }

theorem retry_semantics_witness :
    ((svcRetry [exC4item] "f1").2 = true ∧
      getQueueItem (svcRetry [exC4item] "f1").1 "f1" =
        some { exC4item with
               status := .pending, startedAt := none,
               completedAt := none, error := none, resultSeed := none }) ∧
    (svcRetry [exC4item] "zz").2 = false ∧ (svcRetry [exC4item] "zz").1 = [exC4item] :=
  ⟨(retry_semantics [exC4item] "f1").1 exC4item (by decide) rfl,
   (retry_semantics [exC4item] "zz").2.2 (by decide)⟩

/-- C5: `cancel(id)` on a `pending` item succeeds and deletes it (a
subsequent `get(id)` is null); on an item of any other status, or an
unknown id, it fails and the queue is untouched. -/
theorem cancel_semantics (q : List QueueItem) (id : String) :
    (∀ item, getQueueItem q id = some item → item.status = QueueStatus.pending →
      (svcCancel q id).2 = true ∧ getQueueItem (svcCancel q id).1 id = none) ∧
    (∀ item, getQueueItem q id = some item → item.status ≠ QueueStatus.pending →
      (svcCancel q id).2 = false ∧ (svcCancel q id).1 = q) ∧
    (getQueueItem q id = none → (svcCancel q id).2 = false ∧ (svcCancel q id).1 = q) := by
  refine ⟨?_, ?_, ?_⟩
  · intro item hget hst
    have hsvc : svcCancel q id = ((deleteQueueItem q id).1, true) := by
      unfold svcCancel
      rw [hget]
      dsimp only
      rw [if_pos hst]
    rw [hsvc]
    exact ⟨rfl, getQueueItem_filter_ne q id⟩
  · intro item hget hst
    unfold svcCancel
    rw [hget]
    dsimp only
    rw [if_neg hst]
    exact ⟨rfl, rfl⟩
  · intro hget
    unfold svcCancel
    rw [hget]
    exact ⟨rfl, rfl⟩

theorem cancel_semantics_witness :
    ((svcCancel [exItem "p1" .pending 3] "p1").2 = true ∧
      getQueueItem (svcCancel [exItem "p1" .pending 3] "p1").1 "p1" = none) ∧
    (svcCancel [exItem "gg" .generating 3] "gg").2 = false ∧
      (svcCancel [exItem "gg" .generating 3] "gg").1 = [exItem "gg" .generating 3] :=
  ⟨(cancel_semantics [exItem "p1" .pending 3] "p1").1 (exItem "p1" .pending 3) rfl rfl,
   (cancel_semantics [exItem "gg" .generating 3] "gg").2.1 (exItem "gg" .generating 3)
     rfl (by decide)⟩

/-! ### Crash recovery (`initDatabase`) -/

/-- Queue whose single item is `generating` but carries a non-null
`completed_at`, exhibiting that the recovery UPDATE clears only
`started_at`. -/
def exC6queue : List QueueItem :=
  [{ (exItem "c6" QueueStatus.generating 1) with startedAt := some 2, completedAt := some 5 }]

/-- C6 counterexample: the claim says recovery resets a `generating` item
to `pending` "with its timestamps cleared", but the UPDATE
(`SET status = 'pending', started_at = NULL WHERE status = 'generating'`)
leaves `completed_at` untouched: on this store the recovered item still
has `completedAt = some 5`, so not all timestamps are cleared. -/
theorem recovery_completedAt_not_cleared :
    getQueueItem exC6queue "c6" =
      some { (exItem "c6" QueueStatus.generating 1) with startedAt := some 2, completedAt := some 5 } ∧
    (getQueueItem (recoverQueue exC6queue) "c6").map
        (fun it => (it.status, it.startedAt, it.completedAt)) =
      some (QueueStatus.pending, none, some 5) :=
  ⟨rfl, rfl⟩

/-- C6 (amended): the startup recovery routine resets every item whose
status is `generating` to `pending` and clears its `startedAt` (leaving
`completedAt`, `error` and `resultSeed` as they were), and leaves every
item of any other status unchanged. -/
theorem recovery_resets_generating (q : List QueueItem) :
    (∀ id item, getQueueItem q id = some item →
      (item.status = QueueStatus.generating →
        getQueueItem (recoverQueue q) id =
          some { item with status := .pending, startedAt := none }) ∧
      (item.status ≠ QueueStatus.generating →
        getQueueItem (recoverQueue q) id = some item)) ∧
    (∀ id, getQueueItem q id = none → getQueueItem (recoverQueue q) id = none) := by
  have hmap := getQueueItem_map
    (fun it => if it.status = QueueStatus.generating then
      { it with status := .pending, startedAt := none } else it)
    (fun it => by dsimp only; split <;> rfl) q
  constructor
  · intro id item hget
    constructor
    · intro hst
      unfold recoverQueue
      rw [hmap, hget]
      simp [hst]
    · intro hst
      unfold recoverQueue
      rw [hmap, hget]
      simp [hst]
  · intro id hget
    unfold recoverQueue
    rw [hmap, hget]
    rfl

theorem recovery_resets_generating_witness :
    getQueueItem (recoverQueue exC6queue) "c6" =
      some { { (exItem "c6" QueueStatus.generating 1) with startedAt := some 2, completedAt := some 5 }
             with status := .pending, startedAt := none } :=
  (((recovery_resets_generating exC6queue).1 "c6"
    { (exItem "c6" QueueStatus.generating 1) with startedAt := some 2, completedAt := some 5 }
    rfl).1) rfl

/-! ### The queue processor (`queue-processor.ts`)

`processItem` is an `async` function whose single suspension point is the
awaited `generateImage` call.  It is embedded as a pure function from the
item, the backend's outcome and the ambient settings/background-removal
result to the new store/processor state plus the emitted callback
notifications.  The poll loop (`processNext`) is embedded as a step
relation: one step claims the next pending item and marks it `generating`
(everything `processNext`/`processItem` do synchronously before the
await), another step performs the remainder of `processItem` plus the
`finally` block once the backend settles. -/

/-- `GenerateImageResult` from `shared/sd-cpp.ts`. -/
structure GenerateImageResult where
  success : Bool
  outputPath : Option String
  error : Option String
  generationTime : Int
  seed : Option Int
deriving DecidableEq, Repr

/-- A thrown/rejected JavaScript value as `isDiskFullError` inspects it:
an `Error` instance (message plus optional `code`), a plain string, or
anything else (with its `String(error)` rendering). -/
inductive JsValue where
  | errObj (message : String) (code : Option String)
  | str (s : String)
  | other (display : String)
deriving DecidableEq, Repr

/-- `message.includes(pat)` for JavaScript strings. -/
def strIncludes (s pat : String) : Bool := (s.splitOn pat).length != 1

/-- `isDiskFullError`: an `Error` with code `ENOSPC`, or an `Error`
message / plain string containing `"disk full"` or
`"no space left on device"` case-insensitively. -/
def isDiskFullError : JsValue → Bool
  | .errObj message code =>
    code == some "ENOSPC" ||
      strIncludes message.toLower "disk full" ||
      strIncludes message.toLower "no space left on device"
  | .str s =>
    strIncludes s.toLower "disk full" || strIncludes s.toLower "no space left on device"
  | .other _ => false

/-- `error instanceof Error ? error.message : String(error)`. -/
def jsErrorMessage : JsValue → String
  | .errObj message _ => message
  | .str s => s
  | .other display => display

/-- How the awaited `generateImage` call settles: a resolved
`GenerateImageResult` or a rejection/throw. -/
inductive BackendOutcome where
  | resolved (res : GenerateImageResult)
  | thrown (e : JsValue)
deriving DecidableEq, Repr

/-- `RemoveBackgroundResult` from `services/background-removal.ts`. -/
structure RemoveBackgroundResult where
  success : Bool
  outputPath : Option String
  error : Option String
deriving DecidableEq, Repr

/-- The environment of the optional background-removal pass:
`getSettings().removeBackground` and, when the pass runs, the result the
`removeBackground` call settles with. -/
structure BgEnv where
  removeBackgroundSetting : Bool
  result : RemoveBackgroundResult
deriving DecidableEq, Repr

/-- `getTransparentPath`: `originalPath.replace(/\x2epng$/, "-transparent.png")`. -/
def getTransparentPath (originalPath : String) : String :=
  if originalPath.endsWith ".png" then originalPath.dropRight 4 ++ "-transparent.png"
  else originalPath

/-- The processor callback invocations, in order of emission
(`onStatusChange`, `onProgress`, `onComplete`, `onFailed`, `onDiskFull`). -/
inductive Notification where
  | statusChange (id : String) (status : QueueStatus)
  | progress (id : String) (step totalSteps percent : Int)
  | jobComplete (id : String) (outputPath : String) (seed : Int)
  | jobFailed (id : String) (error : String)
  | diskFull (id : String)
deriving DecidableEq, Repr

/-- Combined state of the two stores and one `createQueueProcessor`
closure (`running`/`processing`/`paused` flags); `inflight` is the local
`item` of the `processItem` call currently awaiting the backend. -/
structure ProcState where
  queue : List QueueItem
  history : List GenerationRecord
  running : Bool
  processing : Bool
  paused : Bool
  inflight : Option QueueItem
deriving DecidableEq, Repr

/-- Synchronous prefix of `processItem`: mark the item `generating` with
`startedAt` and emit the status-change notification. -/
def markGenerating (item : QueueItem) (startTime : Nat) (s : ProcState) :
    ProcState × List Notification :=
  ({ s with
     queue := updateQueueStatus s.queue item.id .generating
       { startedAt := some startTime, completedAt := none, error := none,
         resultSeed := none } },
   [.statusChange item.id .generating])

/-- The history row `processItem` builds on success and passes to
`recordGeneration`. -/
def buildRecord (item : QueueItem) (seed : Int) (transparentPath : Option String)
    (generationTime : Int) (completedAt : Nat) : GenerationRecord :=
  { id := item.id
    themeId := item.request.themeId
    templateId := item.request.templateId
    templateValues := item.request.templateValues
    prompt := item.request.prompt
    negativePrompt := item.request.negativePrompt
    seed := seed
    outputPath := item.request.outputPath
    transparentPath := transparentPath
    model := item.request.model
    width := item.request.width
    height := item.request.height
    steps := item.request.steps
    cfgScale := item.request.cfgScale
    generationTimeMs := generationTime
    createdAt := completedAt }

/-- Remainder of `processItem` once the awaited `generateImage` call has
settled (`outcome`), including the disk-full circuit breaker.
`progressEvents` are the `(step, totalSteps, percent)` triples the
backend delivered to the progress callback while running. -/
def finishItem (item : QueueItem) (outcome : BackendOutcome) (bg : BgEnv)
    (progressEvents : List (Int × Int × Int)) (completedAt : Nat) (s : ProcState) :
    ProcState × List Notification :=
  let progressNotifs := progressEvents.map fun p =>
    Notification.progress item.id p.1 p.2.1 p.2.2
  match outcome with
  | .resolved res =>
    if res.success then
      let seed := res.seed.getD (item.request.seed.getD 0)
      let q1 := updateQueueStatus s.queue item.id .complete
        { startedAt := none, completedAt := some completedAt, error := none,
          resultSeed := some seed }
      let transparentPath :=
        if bg.removeBackgroundSetting then
          if bg.result.success then some (getTransparentPath item.request.outputPath)
          else none
        else none
      let record := buildRecord item seed transparentPath res.generationTime completedAt
      ({ s with queue := q1, history := s.history ++ [record] },
       progressNotifs ++
         [.statusChange item.id .complete,
          .jobComplete item.id item.request.outputPath seed])
    else
      let errorMessage := res.error.getD "Unknown error"
      if isDiskFullError (.str errorMessage) then
        ({ s with
           queue := updateQueueStatus s.queue item.id .failed
             { startedAt := none, completedAt := some completedAt,
               error := some "Disk full", resultSeed := none }
           paused := true },
         progressNotifs ++
           [.statusChange item.id .failed, .jobFailed item.id "Disk full",
            .diskFull item.id])
      else
        ({ s with
           queue := updateQueueStatus s.queue item.id .failed
             { startedAt := none, completedAt := some completedAt,
               error := some errorMessage, resultSeed := none } },
         progressNotifs ++
           [.statusChange item.id .failed, .jobFailed item.id errorMessage])
  | .thrown e =>
    let errorMessage := jsErrorMessage e
    if isDiskFullError e then
      ({ s with
         queue := updateQueueStatus s.queue item.id .failed
           { startedAt := none, completedAt := some completedAt,
             error := some "Disk full", resultSeed := none }
         paused := true },
       progressNotifs ++
         [.statusChange item.id .failed, .jobFailed item.id "Disk full",
          .diskFull item.id])
    else
      ({ s with
         queue := updateQueueStatus s.queue item.id .failed
           { startedAt := none, completedAt := some completedAt,
             error := some errorMessage, resultSeed := none } },
       progressNotifs ++
         [.statusChange item.id .failed, .jobFailed item.id errorMessage])

/-- All of `processItem` for one item: the synchronous marking followed
by the post-await remainder. -/
def processItem (item : QueueItem) (outcome : BackendOutcome) (bg : BgEnv)
    (progressEvents : List (Int × Int × Int)) (startTime completedAt : Nat)
    (s : ProcState) : ProcState × List Notification :=
  let m := markGenerating item startTime s
  let f := finishItem item outcome bg progressEvents completedAt m.1
  (f.1, m.2 ++ f.2)

/-- `start()`: no-op when already running, else set running, clear
paused. -/
def startProc (s : ProcState) : ProcState :=
  if s.running then s else { s with running := true, paused := false }

/-- `stop()`: clear running and paused. -/
def stopProc (s : ProcState) : ProcState :=
  { s with running := false, paused := false }

/-- `pause()`: no-op unless running and not paused. -/
def pauseProc (s : ProcState) : ProcState :=
  if s.running = true ∧ s.paused = false then { s with paused := true } else s

/-- `resume()`: no-op unless running and paused. -/
def resumeProc (s : ProcState) : ProcState :=
  if s.running = true ∧ s.paused = true then { s with paused := false } else s

/-- The guard of `processNext`'s pick-up path: running, no item in
flight, not paused, and `getNextPending` found an item. -/
def PickUp (s : ProcState) (item : QueueItem) : Prop :=
  s.running = true ∧ s.processing = false ∧ s.paused = false ∧
    getNextPending s.queue = some item

theorem getQueueItem_update (q : List QueueItem) (id : String) (st : QueueStatus)
    (u : StatusUpdates) (id0 : String) :
    getQueueItem (updateQueueStatus q id st u) id0 =
      (getQueueItem q id0).map fun it => if it.id = id then applyUpdates it st u else it := by
  unfold updateQueueStatus
  exact getQueueItem_map _ (fun it => by split <;> rfl) q id0

/-- Whether `processItem` will take its disk-full branch for the given
backend outcome: an explicit failure payload whose error text matches the
disk-full signature, or a thrown/rejected value matching it
(`ENOSPC` code or matching message text). -/
def outcomeDiskFull : BackendOutcome → Bool
  | .resolved res => !res.success && isDiskFullError (.str (res.error.getD "Unknown error"))
  | .thrown e => isDiskFullError e

/-- C3: when the backend outcome matches the disk-full signature, the
item ends `failed` with error text exactly `"Disk full"` and
`completedAt` set, the dedicated disk-full notification carrying the job
id is emitted in addition to the normal failure notifications, and the
paused flag becomes true, so the `processNext` pick-up guard can fire for
no item until `resume()` clears the flag. -/
theorem getQueueItem_double_update (q : List QueueItem) (item : QueueItem)
    (hget : getQueueItem q item.id = some item)
    (st1 st2 : QueueStatus) (u1 u2 : StatusUpdates) :
    getQueueItem (updateQueueStatus (updateQueueStatus q item.id st1 u1) item.id st2 u2)
        item.id
      = some (applyUpdates (applyUpdates item st1 u1) st2 u2) := by
  rw [getQueueItem_update, getQueueItem_update, hget]
  simp [applyUpdates]

theorem disk_full_circuit_breaker (s : ProcState) (item : QueueItem)
    (outcome : BackendOutcome) (bg : BgEnv) (pe : List (Int × Int × Int))
    (t1 t2 : Nat) (hget : getQueueItem s.queue item.id = some item)
    (hdisk : outcomeDiskFull outcome = true) :
    (∃ it', getQueueItem (processItem item outcome bg pe t1 t2 s).1.queue item.id = some it' ∧
       it'.status = QueueStatus.failed ∧ it'.error = some "Disk full" ∧
       it'.completedAt = some t2) ∧
    Notification.diskFull item.id ∈ (processItem item outcome bg pe t1 t2 s).2 ∧
    Notification.jobFailed item.id "Disk full" ∈ (processItem item outcome bg pe t1 t2 s).2 ∧
    Notification.statusChange item.id QueueStatus.failed ∈ (processItem item outcome bg pe t1 t2 s).2 ∧
    (processItem item outcome bg pe t1 t2 s).1.paused = true ∧
    (∀ item₂, ¬ PickUp (processItem item outcome bg pe t1 t2 s).1 item₂) := by
  cases outcome with
  | resolved res =>
    rw [outcomeDiskFull] at hdisk
    rw [Bool.and_eq_true, Bool.not_eq_true'] at hdisk
    obtain ⟨hfail, hdf⟩ := hdisk
    simp only [processItem, markGenerating, finishItem, hfail, hdf, Bool.false_eq_true,
      if_false, if_true]
    refine ⟨⟨_, getQueueItem_double_update s.queue item hget _ _ _ _, ?_, ?_, ?_⟩,
      ?_, ?_, ?_, ?_, ?_⟩
    · simp [applyUpdates]
    · simp [applyUpdates]
    · simp [applyUpdates]
    · simp
    · simp
    · simp
    · trivial
    · intro item₂ hpick
      exact absurd hpick.2.2.1 (by simp)
  | thrown e =>
    rw [outcomeDiskFull] at hdisk
    simp only [processItem, markGenerating, finishItem, hdisk, if_true]
    refine ⟨⟨_, getQueueItem_double_update s.queue item hget _ _ _ _, ?_, ?_, ?_⟩,
      ?_, ?_, ?_, ?_, ?_⟩
    · simp [applyUpdates]
    · simp [applyUpdates]
    · simp [applyUpdates]
    · simp
    · simp
    · simp
    · trivial
    · intro item₂ hpick
      exact absurd hpick.2.2.1 (by simp)

/-- Backend outcome used by the C3 witness: a rejection with the
`ENOSPC` platform code. -/
def exC3outcome : BackendOutcome := .thrown (.errObj "write failed" (some "ENOSPC"))

/-- Background-removal environment with the setting off. -/
def exBgOff : BgEnv :=
  { removeBackgroundSetting := false
    result := { success := true, outputPath := none, error := none } }

/-- Processor state holding one pending item, used by the witnesses. -/
def exC3state : ProcState :=
  { queue := [exItem "d1" .pending 2], history := [], running := true,
    processing := false, paused := false, inflight := none }

theorem disk_full_circuit_breaker_witness :
    (∃ it', getQueueItem (processItem (exItem "d1" .pending 2) exC3outcome exBgOff [] 3 4
        exC3state).1.queue (exItem "d1" .pending 2).id = some it' ∧
       it'.status = QueueStatus.failed ∧ it'.error = some "Disk full" ∧
       it'.completedAt = some 4) ∧
    Notification.diskFull (exItem "d1" .pending 2).id ∈
      (processItem (exItem "d1" .pending 2) exC3outcome exBgOff [] 3 4 exC3state).2 ∧
    Notification.jobFailed (exItem "d1" .pending 2).id "Disk full" ∈
      (processItem (exItem "d1" .pending 2) exC3outcome exBgOff [] 3 4 exC3state).2 ∧
    Notification.statusChange (exItem "d1" .pending 2).id QueueStatus.failed ∈
      (processItem (exItem "d1" .pending 2) exC3outcome exBgOff [] 3 4 exC3state).2 ∧
    (processItem (exItem "d1" .pending 2) exC3outcome exBgOff [] 3 4 exC3state).1.paused = true ∧
    (∀ item₂, ¬ PickUp
      (processItem (exItem "d1" .pending 2) exC3outcome exBgOff [] 3 4 exC3state).1 item₂) :=
  disk_full_circuit_breaker exC3state (exItem "d1" .pending 2) exC3outcome exBgOff [] 3 4
    rfl rfl

/-- C7: on backend success the item becomes `complete` with `completedAt`
set and `resultSeed` the backend seed, else the requested seed, else 0,
and the matching history row is recorded; on a failure payload or a
throw, no history row is written and the item becomes `failed`; a history
row is written by this call if and only if the item reached `complete`. -/
theorem history_iff_complete (s : ProcState) (item : QueueItem)
    (outcome : BackendOutcome) (bg : BgEnv) (pe : List (Int × Int × Int))
    (t1 t2 : Nat) (hget : getQueueItem s.queue item.id = some item) :
    (∀ res, outcome = BackendOutcome.resolved res → res.success = true →
      getQueueItem (processItem item outcome bg pe t1 t2 s).1.queue item.id =
        some { item with
               status := QueueStatus.complete, startedAt := some t1,
               completedAt := some t2,
               resultSeed := some (res.seed.getD (item.request.seed.getD 0)) } ∧
      (processItem item outcome bg pe t1 t2 s).1.history =
        s.history ++ [buildRecord item (res.seed.getD (item.request.seed.getD 0))
          (if bg.removeBackgroundSetting then
             if bg.result.success then some (getTransparentPath item.request.outputPath)
             else none
           else none) res.generationTime t2]) ∧
    (∀ res, outcome = BackendOutcome.resolved res → res.success = false →
      (processItem item outcome bg pe t1 t2 s).1.history = s.history ∧
      ∃ it', getQueueItem (processItem item outcome bg pe t1 t2 s).1.queue item.id = some it' ∧
        it'.status = QueueStatus.failed) ∧
    (∀ e, outcome = BackendOutcome.thrown e →
      (processItem item outcome bg pe t1 t2 s).1.history = s.history ∧
      ∃ it', getQueueItem (processItem item outcome bg pe t1 t2 s).1.queue item.id = some it' ∧
        it'.status = QueueStatus.failed) ∧
    ((processItem item outcome bg pe t1 t2 s).1.history ≠ s.history ↔
      ∃ it', getQueueItem (processItem item outcome bg pe t1 t2 s).1.queue item.id = some it' ∧
        it'.status = QueueStatus.complete) := by
  have hsuccess : ∀ res, outcome = BackendOutcome.resolved res → res.success = true →
      getQueueItem (processItem item outcome bg pe t1 t2 s).1.queue item.id =
        some { item with
               status := QueueStatus.complete, startedAt := some t1,
               completedAt := some t2,
               resultSeed := some (res.seed.getD (item.request.seed.getD 0)) } ∧
      (processItem item outcome bg pe t1 t2 s).1.history =
        s.history ++ [buildRecord item (res.seed.getD (item.request.seed.getD 0))
          (if bg.removeBackgroundSetting then
             if bg.result.success then some (getTransparentPath item.request.outputPath)
             else none
           else none) res.generationTime t2] := by
    intro res heq hsuc
    subst heq
    simp only [processItem, markGenerating, finishItem, hsuc, if_true]
    constructor
    · rw [getQueueItem_double_update s.queue item hget]
      simp [applyUpdates]
    · trivial
  have hfailres : ∀ res, outcome = BackendOutcome.resolved res → res.success = false →
      (processItem item outcome bg pe t1 t2 s).1.history = s.history ∧
      ∃ it', getQueueItem (processItem item outcome bg pe t1 t2 s).1.queue item.id = some it' ∧
        it'.status = QueueStatus.failed := by
    intro res heq hfail
    subst heq
    by_cases hdf : isDiskFullError (.str (res.error.getD "Unknown error")) = true
    · simp only [processItem, markGenerating, finishItem, hfail, hdf, Bool.false_eq_true,
        if_false, if_true]
      exact ⟨by trivial, _, getQueueItem_double_update s.queue item hget _ _ _ _,
        by simp [applyUpdates]⟩
    · have hdf' : isDiskFullError (.str (res.error.getD "Unknown error")) = false := by
        simpa using hdf
      simp only [processItem, markGenerating, finishItem, hfail, hdf', Bool.false_eq_true,
        if_false]
      exact ⟨by trivial, _, getQueueItem_double_update s.queue item hget _ _ _ _,
        by simp [applyUpdates]⟩
  have hthrown : ∀ e, outcome = BackendOutcome.thrown e →
      (processItem item outcome bg pe t1 t2 s).1.history = s.history ∧
      ∃ it', getQueueItem (processItem item outcome bg pe t1 t2 s).1.queue item.id = some it' ∧
        it'.status = QueueStatus.failed := by
    intro e heq
    subst heq
    by_cases hdf : isDiskFullError e = true
    · simp only [processItem, markGenerating, finishItem, hdf, if_true]
      exact ⟨by trivial, _, getQueueItem_double_update s.queue item hget _ _ _ _,
        by simp [applyUpdates]⟩
    · have hdf' : isDiskFullError e = false := by simpa using hdf
      simp only [processItem, markGenerating, finishItem, hdf', Bool.false_eq_true, if_false]
      exact ⟨by trivial, _, getQueueItem_double_update s.queue item hget _ _ _ _,
        by simp [applyUpdates]⟩
  refine ⟨hsuccess, hfailres, hthrown, ?_⟩
  cases outcome with
  | resolved res =>
    by_cases hsuc : res.success = true
    · obtain ⟨hg, hh⟩ := hsuccess res rfl hsuc
      rw [hh, hg]
      constructor
      · intro _
        exact ⟨_, rfl, rfl⟩
      · intro _ h
        simpa using congrArg List.length h
    · have hfail : res.success = false := by simpa using hsuc
      obtain ⟨hh, it', hg, hst⟩ := hfailres res rfl hfail
      constructor
      · intro h
        rw [hh] at h
        exact absurd rfl h
      · rintro ⟨it'', hg'', hst''⟩
        rw [hg] at hg''
        obtain rfl : it' = it'' := by injection hg''
        rw [hst] at hst''
        cases hst''
  | thrown e =>
    obtain ⟨hh, it', hg, hst⟩ := hthrown e rfl
    constructor
    · intro h
      rw [hh] at h
      exact absurd rfl h
    · rintro ⟨it'', hg'', hst''⟩
      rw [hg] at hg''
      obtain rfl : it' = it'' := by injection hg''
      rw [hst] at hst''
      cases hst''

/-- Successful backend result used by the C7 witness (scenario of §8:
seed 42, generation time 1200). -/
def exRes : GenerateImageResult :=
  { success := true, outputPath := some "/out/img.png", error := none,
    generationTime := 1200, seed := some 42 }

theorem history_iff_complete_witness :
    (∀ res, BackendOutcome.resolved exRes = BackendOutcome.resolved res → res.success = true →
      getQueueItem (processItem (exItem "d1" .pending 2) (BackendOutcome.resolved exRes)
          exBgOff [] 3 4 exC3state).1.queue (exItem "d1" .pending 2).id =
        some { (exItem "d1" .pending 2) with
               status := QueueStatus.complete, startedAt := some 3,
               completedAt := some 4,
               resultSeed := some (res.seed.getD ((exItem "d1" .pending 2).request.seed.getD 0)) } ∧
      (processItem (exItem "d1" .pending 2) (BackendOutcome.resolved exRes) exBgOff [] 3 4
          exC3state).1.history =
        exC3state.history ++ [buildRecord (exItem "d1" .pending 2)
          (res.seed.getD ((exItem "d1" .pending 2).request.seed.getD 0))
          (if exBgOff.removeBackgroundSetting then
             if exBgOff.result.success then
               some (getTransparentPath (exItem "d1" .pending 2).request.outputPath)
             else none
           else none) res.generationTime 4]) ∧
    (∀ res, BackendOutcome.resolved exRes = BackendOutcome.resolved res → res.success = false →
      (processItem (exItem "d1" .pending 2) (BackendOutcome.resolved exRes) exBgOff [] 3 4
          exC3state).1.history = exC3state.history ∧
      ∃ it', getQueueItem (processItem (exItem "d1" .pending 2)
          (BackendOutcome.resolved exRes) exBgOff [] 3 4 exC3state).1.queue
          (exItem "d1" .pending 2).id = some it' ∧
        it'.status = QueueStatus.failed) ∧
    (∀ e, BackendOutcome.resolved exRes = BackendOutcome.thrown e →
      (processItem (exItem "d1" .pending 2) (BackendOutcome.resolved exRes) exBgOff [] 3 4
          exC3state).1.history = exC3state.history ∧
      ∃ it', getQueueItem (processItem (exItem "d1" .pending 2)
          (BackendOutcome.resolved exRes) exBgOff [] 3 4 exC3state).1.queue
          (exItem "d1" .pending 2).id = some it' ∧
        it'.status = QueueStatus.failed) ∧
    ((processItem (exItem "d1" .pending 2) (BackendOutcome.resolved exRes) exBgOff [] 3 4
        exC3state).1.history ≠ exC3state.history ↔
      ∃ it', getQueueItem (processItem (exItem "d1" .pending 2)
          (BackendOutcome.resolved exRes) exBgOff [] 3 4 exC3state).1.queue
          (exItem "d1" .pending 2).id = some it' ∧
        it'.status = QueueStatus.complete) :=
  history_iff_complete exC3state (exItem "d1" .pending 2) (BackendOutcome.resolved exRes)
    exBgOff [] 3 4 rfl

/-- C9: when the backend succeeds but the enabled background-removal pass
fails, the item still ends `complete` (never `failed`) and its history
row is still written, with `transparentPath` left null. -/
theorem background_removal_nonfatal (s : ProcState) (item : QueueItem)
    (res : GenerateImageResult) (bg : BgEnv) (pe : List (Int × Int × Int))
    (t1 t2 : Nat) (hget : getQueueItem s.queue item.id = some item)
    (hsuc : res.success = true) (hbgOn : bg.removeBackgroundSetting = true)
    (hbgFail : bg.result.success = false) :
    (∃ it', getQueueItem (processItem item (BackendOutcome.resolved res) bg pe t1 t2 s).1.queue
        item.id = some it' ∧ it'.status = QueueStatus.complete ∧
        it'.status ≠ QueueStatus.failed) ∧
    ∃ rec1, (processItem item (BackendOutcome.resolved res) bg pe t1 t2 s).1.history =
        s.history ++ [rec1] ∧ rec1.id = item.id ∧ rec1.transparentPath = none := by
  simp only [processItem, markGenerating, finishItem, hsuc, hbgOn, hbgFail,
    Bool.false_eq_true, if_false, if_true]
  refine ⟨⟨_, getQueueItem_double_update s.queue item hget _ _ _ _, ?_, ?_⟩, ?_⟩
  · simp [applyUpdates]
  · simp [applyUpdates]
  · exact ⟨_, by trivial, rfl, rfl⟩

/-- Background-removal environment with the setting on and a failing
removal pass, used by the C9 witness. -/
def exBgFail : BgEnv :=
  { removeBackgroundSetting := true
    result := { success := false, outputPath := none, error := some "model load failed" } }

theorem background_removal_nonfatal_witness :
    (∃ it', getQueueItem (processItem (exItem "d1" .pending 2) (BackendOutcome.resolved exRes)
        exBgFail [] 3 4 exC3state).1.queue (exItem "d1" .pending 2).id = some it' ∧
        it'.status = QueueStatus.complete ∧ it'.status ≠ QueueStatus.failed) ∧
    ∃ rec1, (processItem (exItem "d1" .pending 2) (BackendOutcome.resolved exRes) exBgFail []
        3 4 exC3state).1.history = exC3state.history ++ [rec1] ∧
      rec1.id = (exItem "d1" .pending 2).id ∧ rec1.transparentPath = none :=
  background_removal_nonfatal exC3state (exItem "d1" .pending 2) exRes exBgFail [] 3 4
    rfl rfl rfl rfl

/-! ### The single-worker invariant

States reachable from an empty store by any interleaving of service
commands (`add`/`cancel`/`remove`/`retry`), processor controls
(`start`/`stop`/`pause`/`resume`) and the two halves of the poll loop
(claiming the next pending item; finishing the in-flight item). -/

/-- Ids of the rows whose status is `generating`. -/
def genIds (q : List QueueItem) : List String :=
  (q.filter fun it => decide (it.status = QueueStatus.generating)).map QueueItem.id

theorem genIds_cons (a : QueueItem) (q : List QueueItem) :
    genIds (a :: q) =
      (if a.status = QueueStatus.generating then [a.id] else []) ++ genIds q := by
  by_cases h : a.status = QueueStatus.generating <;> simp [genIds, h]

theorem genIds_append_not_gen (q : List QueueItem) (item : QueueItem)
    (h : item.status ≠ QueueStatus.generating) :
    genIds (q ++ [item]) = genIds q := by
  simp [genIds, List.filter_append, h]

theorem updateQueueStatus_cons (a : QueueItem) (q : List QueueItem) (id : String)
    (st : QueueStatus) (u : StatusUpdates) :
    updateQueueStatus (a :: q) id st u =
      (if a.id = id then applyUpdates a st u else a) :: updateQueueStatus q id st u := rfl

/-- The per-row effect of `resetQueueItem`. -/
def resetApply (it : QueueItem) : QueueItem :=
  { it with
    status := .pending
    startedAt := none
    completedAt := none
    error := none
    resultSeed := none }

theorem resetQueueItem_fst_cons (a : QueueItem) (q : List QueueItem) (id : String) :
    (resetQueueItem (a :: q) id).1 =
      (if a.id = id then resetApply a else a) :: (resetQueueItem q id).1 := rfl

theorem updateQueueStatus_not_mem (q : List QueueItem) (id : String) (st : QueueStatus)
    (u : StatusUpdates) (h : id ∉ q.map QueueItem.id) :
    updateQueueStatus q id st u = q := by
  induction q with
  | nil => rfl
  | cons a rest ih =>
    have ha : ¬ a.id = id := fun he => h (by simp [he])
    have hrest : id ∉ rest.map QueueItem.id := fun hm => h (by simp [hm])
    rw [updateQueueStatus_cons, if_neg ha, ih hrest]

theorem map_id_update (q : List QueueItem) (id : String) (st : QueueStatus)
    (u : StatusUpdates) :
    (updateQueueStatus q id st u).map QueueItem.id = q.map QueueItem.id := by
  induction q with
  | nil => rfl
  | cons a rest ih =>
    rw [updateQueueStatus_cons, List.map_cons, List.map_cons, ih]
    by_cases h : a.id = id
    · rw [if_pos h]
      rfl
    · rw [if_neg h]

theorem map_id_reset (q : List QueueItem) (id : String) :
    ((resetQueueItem q id).1).map QueueItem.id = q.map QueueItem.id := by
  induction q with
  | nil => rfl
  | cons a rest ih =>
    rw [resetQueueItem_fst_cons, List.map_cons, List.map_cons, ih]
    by_cases h : a.id = id
    · rw [if_pos h]
      rfl
    · rw [if_neg h]

theorem getQueueItem_unique (q : List QueueItem) (id : String) (item : QueueItem)
    (hnodup : (q.map QueueItem.id).Nodup) (h : getQueueItem q id = some item) :
    ∀ it ∈ q, it.id = id → it = item := by
  induction q with
  | nil => intro it hit; cases hit
  | cons a rest ih =>
    intro it hit hid
    by_cases ha : a.id = id
    · have hfind : getQueueItem (a :: rest) id = some a := by
        simp [getQueueItem, List.find?, ha]
      rw [hfind] at h
      obtain rfl : a = item := by injection h
      rcases List.mem_cons.mp hit with rfl | hmem
      · rfl
      · exfalso
        have hm : it.id ∈ rest.map QueueItem.id := List.mem_map_of_mem QueueItem.id hmem
        rw [hid, ← ha] at hm
        exact (List.nodup_cons.mp hnodup).1 hm
    · have hfind : getQueueItem (a :: rest) id = getQueueItem rest id := by
        have hb : (a.id == id) = false := by simpa using ha
        simp [getQueueItem, List.find?, hb]
      rw [hfind] at h
      rcases List.mem_cons.mp hit with rfl | hmem
      · exact absurd hid ha
      · exact ih (List.nodup_cons.mp hnodup).2 h it hmem hid

theorem genIds_update_empty (q : List QueueItem) (id : String) (st : QueueStatus)
    (u : StatusUpdates) (hst : st ≠ QueueStatus.generating)
    (hempty : genIds q = []) :
    genIds (updateQueueStatus q id st u) = [] := by
  induction q with
  | nil => rfl
  | cons a rest ih =>
    rw [genIds_cons] at hempty
    have hna : a.status ≠ QueueStatus.generating := by
      intro hgen
      rw [if_pos hgen] at hempty
      cases hempty
    rw [if_neg hna, List.nil_append] at hempty
    have hrec := ih hempty
    rw [updateQueueStatus_cons, genIds_cons]
    by_cases h : a.id = id
    · rw [if_pos h, if_neg (show (applyUpdates a st u).status ≠ QueueStatus.generating from hst),
        List.nil_append]
      exact hrec
    · rw [if_neg h, if_neg hna, List.nil_append]
      exact hrec

theorem genIds_update_generating (q : List QueueItem) (item : QueueItem)
    (u : StatusUpdates) (hnodup : (q.map QueueItem.id).Nodup) (hmem : item ∈ q)
    (hempty : genIds q = []) :
    genIds (updateQueueStatus q item.id QueueStatus.generating u) = [item.id] := by
  induction q with
  | nil => cases hmem
  | cons a rest ih =>
    rw [genIds_cons] at hempty
    have hna : a.status ≠ QueueStatus.generating := by
      intro hgen
      rw [if_pos hgen] at hempty
      cases hempty
    rw [if_neg hna, List.nil_append] at hempty
    rcases List.mem_cons.mp hmem with rfl | hmem'
    · have hnm : item.id ∉ rest.map QueueItem.id := (List.nodup_cons.mp hnodup).1
      rw [updateQueueStatus_cons, if_pos rfl,
        updateQueueStatus_not_mem rest item.id _ _ hnm, genIds_cons,
        if_pos (show (applyUpdates item QueueStatus.generating u).status =
          QueueStatus.generating from rfl), hempty]
      rfl
    · have ha : ¬ a.id = item.id := by
        intro he
        have hm : item.id ∈ rest.map QueueItem.id := List.mem_map_of_mem QueueItem.id hmem'
        rw [← he] at hm
        exact (List.nodup_cons.mp hnodup).1 hm
      have hrec := ih (List.nodup_cons.mp hnodup).2 hmem' hempty
      rw [updateQueueStatus_cons, if_neg ha, genIds_cons, if_neg hna, List.nil_append]
      exact hrec

theorem genIds_update_away (q : List QueueItem) (item : QueueItem) (st : QueueStatus)
    (u : StatusUpdates) (hst : st ≠ QueueStatus.generating)
    (hone : genIds q = [item.id]) :
    genIds (updateQueueStatus q item.id st u) = [] := by
  induction q with
  | nil => cases hone
  | cons a rest ih =>
    rw [genIds_cons] at hone
    by_cases hag : a.status = QueueStatus.generating
    · rw [if_pos hag, List.cons_append, List.nil_append] at hone
      have hid : a.id = item.id := by injection hone
      have hrest : genIds rest = [] := by injection hone
      rw [updateQueueStatus_cons, if_pos hid, genIds_cons,
        if_neg (show (applyUpdates a st u).status ≠ QueueStatus.generating from hst),
        List.nil_append]
      exact genIds_update_empty rest item.id st u hst hrest
    · rw [if_neg hag, List.nil_append] at hone
      have hrec := ih hone
      rw [updateQueueStatus_cons, genIds_cons]
      by_cases h : a.id = item.id
      · rw [if_pos h,
          if_neg (show (applyUpdates a st u).status ≠ QueueStatus.generating from hst),
          List.nil_append]
        exact hrec
      · rw [if_neg h, if_neg hag, List.nil_append]
        exact hrec

theorem genIds_filter_of_not_gen (q : List QueueItem) (id : String)
    (h : ∀ it ∈ q, it.id = id → it.status ≠ QueueStatus.generating) :
    genIds (q.filter fun it => it.id != id) = genIds q := by
  induction q with
  | nil => rfl
  | cons a rest ih =>
    have hrec := ih fun it hit => h it (List.mem_cons_of_mem _ hit)
    by_cases ha : a.id = id
    · have hna : a.status ≠ QueueStatus.generating := h a (List.mem_cons_self a rest) ha
      have hfa : (a.id != id) = false := by simp [ha]
      rw [List.filter_cons, hfa, genIds_cons, if_neg hna, List.nil_append]
      · exact hrec
    · have hfa : (a.id != id) = true := by simp [ha]
      rw [List.filter_cons, hfa]
      simp only [if_true]
      rw [genIds_cons, genIds_cons, hrec]

theorem genIds_reset_of_not_gen (q : List QueueItem) (id : String)
    (h : ∀ it ∈ q, it.id = id → it.status ≠ QueueStatus.generating) :
    genIds ((resetQueueItem q id).1) = genIds q := by
  induction q with
  | nil => rfl
  | cons a rest ih =>
    have hrec := ih fun it hit => h it (List.mem_cons_of_mem _ hit)
    rw [resetQueueItem_fst_cons, genIds_cons]
    by_cases ha : a.id = id
    · have hna : a.status ≠ QueueStatus.generating := h a (List.mem_cons_self a rest) ha
      have hra : (resetApply a).status ≠ QueueStatus.generating := by
        intro hc
        cases hc
      rw [if_pos ha, genIds_cons, if_neg hra, if_neg hna, List.nil_append, List.nil_append]
      exact hrec
    · rw [if_neg ha, genIds_cons, hrec]

/-- One atomic step of the system: a processor control call, a queue
service command, or one of the two halves of the poll loop (the
synchronous claim of the next pending item before the awaited backend
call, and the continuation after the backend settles plus the `finally`
block clearing the in-flight flag). -/
inductive Step : ProcState → ProcState → Prop where
  | start (s : ProcState) : Step s (startProc s)
  | stop (s : ProcState) : Step s (stopProc s)
  | pause (s : ProcState) : Step s (pauseProc s)
  | resume (s : ProcState) : Step s (resumeProc s)
  | add (s : ProcState) (r : GenerationRequest) (now : Nat) (q' : List QueueItem)
      (item : QueueItem) (h : addToQueue r now s.queue = .ok (q', item)) :
      Step s { s with queue := q' }
  | cancel (s : ProcState) (id : String) :
      Step s { s with queue := (svcCancel s.queue id).1 }
  | remove (s : ProcState) (id : String) :
      Step s { s with queue := (svcRemove s.queue id).1 }
  | retry (s : ProcState) (id : String) :
      Step s { s with queue := (svcRetry s.queue id).1 }
  | pickUp (s : ProcState) (item : QueueItem) (t : Nat) (h : PickUp s item) :
      Step s { (markGenerating item t s).1 with processing := true, inflight := some item }
  | finish (s : ProcState) (item : QueueItem) (outcome : BackendOutcome) (bg : BgEnv)
      (pe : List (Int × Int × Int)) (t : Nat) (h : s.inflight = some item) :
      Step s { (finishItem item outcome bg pe t s).1 with
               processing := false, inflight := none }

/-- The state at process start: empty stores, processor not running. -/
def initState : ProcState :=
  { queue := [], history := [], running := false, processing := false,
    paused := false, inflight := none }

/-- States reachable from the empty initial state. -/
inductive Reachable : ProcState → Prop where
  | init : Reachable initState
  | step {s s' : ProcState} : Reachable s → Step s s' → Reachable s'

/-- Inductive invariant: row ids are duplicate-free, the `generating`
rows are exactly the in-flight item (none when nothing is in flight),
and the `processing` flag tracks the in-flight item. -/
def QueueInv (s : ProcState) : Prop :=
  (s.queue.map QueueItem.id).Nodup ∧
  (s.inflight = none → genIds s.queue = []) ∧
  (∀ item, s.inflight = some item → genIds s.queue = [item.id]) ∧
  s.processing = s.inflight.isSome

theorem finishItem_queue_shape (item : QueueItem) (outcome : BackendOutcome) (bg : BgEnv)
    (pe : List (Int × Int × Int)) (t : Nat) (s : ProcState) :
    ∃ st u, st ≠ QueueStatus.generating ∧
      (finishItem item outcome bg pe t s).1.queue = updateQueueStatus s.queue item.id st u := by
  cases outcome with
  | resolved res =>
    cases hres : res.success with
    | true =>
      refine ⟨QueueStatus.complete,
        { startedAt := none, completedAt := some t, error := none,
          resultSeed := some (res.seed.getD (item.request.seed.getD 0)) }, ?_, ?_⟩
      · intro hc
        cases hc
      · simp only [finishItem, hres, if_true]
    | false =>
      by_cases hdf : isDiskFullError (.str (res.error.getD "Unknown error")) = true
      · refine ⟨QueueStatus.failed,
          { startedAt := none, completedAt := some t, error := some "Disk full",
            resultSeed := none }, ?_, ?_⟩
        · intro hc
          cases hc
        · simp only [finishItem, hres, hdf, Bool.false_eq_true, if_false, if_true]
      · have hdf' : isDiskFullError (.str (res.error.getD "Unknown error")) = false := by
          simpa using hdf
        refine ⟨QueueStatus.failed,
          { startedAt := none, completedAt := some t,
            error := some (res.error.getD "Unknown error"), resultSeed := none }, ?_, ?_⟩
        · intro hc
          cases hc
        · simp only [finishItem, hres, hdf', Bool.false_eq_true, if_false]
  | thrown e =>
    cases hdf : isDiskFullError e with
    | true =>
      refine ⟨QueueStatus.failed,
        { startedAt := none, completedAt := some t, error := some "Disk full",
          resultSeed := none }, ?_, ?_⟩
      · intro hc
        cases hc
      · simp only [finishItem, hdf, if_true]
    | false =>
      refine ⟨QueueStatus.failed,
        { startedAt := none, completedAt := some t, error := some (jsErrorMessage e),
          resultSeed := none }, ?_, ?_⟩
      · intro hc
        cases hc
      · simp only [finishItem, hdf, Bool.false_eq_true, if_false]

theorem step_preserves_inv {s s' : ProcState} (hs : QueueInv s) (hstep : Step s s') :
    QueueInv s' := by
  obtain ⟨hnodup, hnone, hsome, hproc⟩ := hs
  cases hstep with
  | start =>
    unfold startProc
    split
    · exact ⟨hnodup, hnone, hsome, hproc⟩
    · exact ⟨hnodup, hnone, hsome, hproc⟩
  | stop =>
    exact ⟨hnodup, hnone, hsome, hproc⟩
  | pause =>
    unfold pauseProc
    split
    · exact ⟨hnodup, hnone, hsome, hproc⟩
    · exact ⟨hnodup, hnone, hsome, hproc⟩
  | resume =>
    unfold resumeProc
    split
    · exact ⟨hnodup, hnone, hsome, hproc⟩
    · exact ⟨hnodup, hnone, hsome, hproc⟩
  | add r now q' item h =>
    unfold addToQueue at h
    split at h
    · cases h
    · next hfresh =>
      injection h with h1
      rw [Prod.mk.injEq] at h1
      obtain ⟨hq, -⟩ := h1
      subst hq
      refine ⟨?_, ?_, ?_, hproc⟩
      · rw [List.map_append]
        have hfree : r.id ∉ s.queue.map QueueItem.id := by
          intro hm
          obtain ⟨it, hit, hid⟩ := List.mem_map.mp hm
          exact hfresh ⟨it, hit, hid⟩
        simp [List.nodup_append, hnodup, hfree]
      · intro hin
        rw [genIds_append_not_gen _ _ (fun hc => by cases hc)]
        exact hnone hin
      · intro item' hin
        rw [genIds_append_not_gen _ _ (fun hc => by cases hc)]
        exact hsome item' hin
  | cancel id =>
    show QueueInv { s with queue := (svcCancel s.queue id).1 }
    cases hq : getQueueItem s.queue id with
    | none =>
      have he : (svcCancel s.queue id).1 = s.queue := by
        unfold svcCancel
        rw [hq]
      rw [he]
      exact ⟨hnodup, hnone, hsome, hproc⟩
    | some item =>
      by_cases hstp : item.status = QueueStatus.pending
      · have he : (svcCancel s.queue id).1 = s.queue.filter fun it => it.id != id := by
          unfold svcCancel
          rw [hq]
          dsimp only
          rw [if_pos hstp]
          rfl
        rw [he]
        have hng : ∀ it ∈ s.queue, it.id = id → it.status ≠ QueueStatus.generating := by
          intro it hit hid
          have heq := getQueueItem_unique s.queue id item hnodup hq it hit hid
          subst heq
          rw [hstp]
          intro hc
          cases hc
        refine ⟨?_, ?_, ?_, hproc⟩
        · exact ((List.filter_sublist s.queue).map QueueItem.id).nodup hnodup
        · intro hin
          rw [genIds_filter_of_not_gen s.queue id hng]
          exact hnone hin
        · intro item' hin
          rw [genIds_filter_of_not_gen s.queue id hng]
          exact hsome item' hin
      · have he : (svcCancel s.queue id).1 = s.queue := by
          unfold svcCancel
          rw [hq]
          dsimp only
          rw [if_neg hstp]
        rw [he]
        exact ⟨hnodup, hnone, hsome, hproc⟩
  | remove id =>
    show QueueInv { s with queue := (svcRemove s.queue id).1 }
    cases hq : getQueueItem s.queue id with
    | none =>
      have he : (svcRemove s.queue id).1 = s.queue := by
        unfold svcRemove
        rw [hq]
      rw [he]
      exact ⟨hnodup, hnone, hsome, hproc⟩
    | some item =>
      by_cases hstp : item.status = QueueStatus.failed ∨ item.status = QueueStatus.complete
      · have he : (svcRemove s.queue id).1 = s.queue.filter fun it => it.id != id := by
          unfold svcRemove
          rw [hq]
          dsimp only
          rw [if_pos hstp]
          rfl
        rw [he]
        have hng : ∀ it ∈ s.queue, it.id = id → it.status ≠ QueueStatus.generating := by
          intro it hit hid
          have heq := getQueueItem_unique s.queue id item hnodup hq it hit hid
          subst heq
          rcases hstp with hstp | hstp <;> rw [hstp] <;> intro hc <;> cases hc
        refine ⟨?_, ?_, ?_, hproc⟩
        · exact ((List.filter_sublist s.queue).map QueueItem.id).nodup hnodup
        · intro hin
          rw [genIds_filter_of_not_gen s.queue id hng]
          exact hnone hin
        · intro item' hin
          rw [genIds_filter_of_not_gen s.queue id hng]
          exact hsome item' hin
      · have he : (svcRemove s.queue id).1 = s.queue := by
          unfold svcRemove
          rw [hq]
          dsimp only
          rw [if_neg hstp]
        rw [he]
        exact ⟨hnodup, hnone, hsome, hproc⟩
  | retry id =>
    show QueueInv { s with queue := (svcRetry s.queue id).1 }
    cases hq : getQueueItem s.queue id with
    | none =>
      have he : (svcRetry s.queue id).1 = s.queue := by
        unfold svcRetry
        rw [hq]
      rw [he]
      exact ⟨hnodup, hnone, hsome, hproc⟩
    | some item =>
      by_cases hstp : item.status = QueueStatus.failed
      · have he : (svcRetry s.queue id).1 = (resetQueueItem s.queue id).1 := by
          unfold svcRetry
          rw [hq]
          dsimp only
          rw [if_pos hstp]
        rw [he]
        have hng : ∀ it ∈ s.queue, it.id = id → it.status ≠ QueueStatus.generating := by
          intro it hit hid
          have heq := getQueueItem_unique s.queue id item hnodup hq it hit hid
          subst heq
          rw [hstp]
          intro hc
          cases hc
        refine ⟨?_, ?_, ?_, hproc⟩
        · rw [map_id_reset]
          exact hnodup
        · intro hin
          rw [genIds_reset_of_not_gen s.queue id hng]
          exact hnone hin
        · intro item' hin
          rw [genIds_reset_of_not_gen s.queue id hng]
          exact hsome item' hin
      · have he : (svcRetry s.queue id).1 = s.queue := by
          unfold svcRetry
          rw [hq]
          dsimp only
          rw [if_neg hstp]
        rw [he]
        exact ⟨hnodup, hnone, hsome, hproc⟩
  | pickUp item t h =>
    obtain ⟨hrun, hpr, hpa, hnext⟩ := h
    have hin : s.inflight = none := by
      cases hifl : s.inflight with
      | none => rfl
      | some it =>
        rw [hifl] at hproc
        rw [hpr] at hproc
        cases hproc
    have hempty := hnone hin
    have hmem := getNextPending_mem s.queue item hnext
    refine ⟨?_, ?_, ?_, rfl⟩
    · show ((updateQueueStatus s.queue item.id QueueStatus.generating _).map QueueItem.id).Nodup
      rw [map_id_update]
      exact hnodup
    · intro hcon
      cases hcon
    · intro item' hin'
      obtain rfl : item = item' := by injection hin'
      exact genIds_update_generating s.queue item _ hnodup hmem hempty
  | finish item outcome bg pe t h =>
    obtain ⟨st, u, hst, hqe⟩ := finishItem_queue_shape item outcome bg pe t s
    have hone := hsome item h
    refine ⟨?_, ?_, ?_, rfl⟩
    · show ((finishItem item outcome bg pe t s).1.queue.map QueueItem.id).Nodup
      rw [hqe, map_id_update]
      exact hnodup
    · intro hdum
      show genIds (finishItem item outcome bg pe t s).1.queue = []
      rw [hqe]
      exact genIds_update_away s.queue item st u hst hone
    · intro item' hcon
      cases hcon

theorem reachable_inv {s : ProcState} (h : Reachable s) : QueueInv s := by
  induction h with
  | init =>
    refine ⟨List.nodup_nil, fun _ => rfl, fun item hcon => ?_, rfl⟩
    cases hcon
  | step _ hstep ih => exact step_preserves_inv ih hstep

/-- C2: in every state reachable from the empty initial state by any
interleaving of processor steps and service commands, at most one queue
item has status `generating`. -/
theorem single_generating_invariant (s : ProcState) (h : Reachable s) :
    (s.queue.filter fun it => decide (it.status = QueueStatus.generating)).length ≤ 1 := by
  obtain ⟨-, hnone, hsome, -⟩ := reachable_inv h
  have hlen : (s.queue.filter fun it =>
      decide (it.status = QueueStatus.generating)).length = (genIds s.queue).length := by
    rw [genIds, List.length_map]
  rw [hlen]
  cases hifl : s.inflight with
  | none =>
    rw [hnone hifl]
    exact Nat.zero_le 1
  | some item =>
    rw [hsome item hifl]
    exact Nat.le_refl 1

/-- State reached from `initState` by `start()`, `add` of request `g1`
at time 5, and the processor claiming it at time 6; its single item is
`generating`. -/
def exC2state : ProcState :=
  { (markGenerating (exItem "g1" .pending 5) 6
      { queue := [exItem "g1" .pending 5], history := [], running := true,
        processing := false, paused := false, inflight := none }).1 with
    processing := true, inflight := some (exItem "g1" .pending 5) }

theorem single_generating_invariant_witness :
    (exC2state.queue.filter fun it =>
      decide (it.status = QueueStatus.generating)).length ≤ 1 :=
  single_generating_invariant exC2state
    (Reachable.step
      (Reachable.step
        (Reachable.step Reachable.init (Step.start initState))
        (Step.add _ (exReq "g1") 5 [exItem "g1" .pending 5] (exItem "g1" .pending 5) rfl))
      (Step.pickUp _ (exItem "g1" .pending 5) 6 ⟨rfl, rfl, rfl, rfl⟩))

end Forgecraft